import Mathlib

/-!
Verification of the kanban board state manager, shallowly embedded from the
repository's sources.  The repository contains several parallel frontend
implementations of the board; each is embedded in its own namespace:

* `UseKanban` — `src/frontend/src/hooks/useKanban.js` (localStorage-backed
  variant with columns `todo` / `inprogress` / `done`, tasks `{id, content}`).
* `AppJs` — the board logic of `src/frontend/src/App.js` (REST-backed variant,
  four columns, tasks partitioned by `status`).
* `Part006` — the TypeScript variant in `src/unnamed/part_006` (REST-backed,
  typed tasks, search / priority / status filters).
* `Part004` — the drag-and-drop handler of the variant in
  `src/unnamed/part_004`.

JavaScript list operations (`splice`, `findIndex`, `includes`, …) are embedded
with their exact semantics, including negative-index normalization.
Asynchronous handlers are embedded as pure state transformers that are
additionally parameterized by the outcome of the remote call they issue and
that return the chronological trace of their observable effects (remote calls,
local state updates, console errors).
-/

namespace Kanban

/-- JavaScript strings are modeled as lists of characters. -/
abbrev Str := List Char

/-- Helper to write string literals as `Str` values. -/
def str (s : String) : Str := s.data

/-- `String.prototype.toLowerCase`, restricted to the ASCII case mapping. -/
def jsToLower (s : Str) : Str := s.map Char.toLower

/-- `hay.includes(needle)` of JavaScript: substring containment. -/
def strContains (hay needle : Str) : Bool :=
  match hay with
  | [] => needle.isEmpty
  | c :: t => needle.isPrefixOf (c :: t) || strContains t needle

/-- Index normalization of `Array.prototype.splice`: a negative index counts
from the end (clamped below at `0`), a non-negative index is clamped above at
the length. -/
def normIdx (len : Nat) (i : Int) : Nat :=
  if i < 0 then ((len : Int) + i).toNat else min i.toNat len

/-- `xs.splice(i, 1)` — remove one element at the normalized index
(removing nothing when the normalized index is past the end). -/
def spliceRemoveOne (xs : List α) (i : Int) : List α :=
  let j := normIdx xs.length i
  xs.take j ++ xs.drop (j + 1)

/-- `xs.splice(i, 0, a)` — insert `a` at the normalized index. -/
def spliceInsert (xs : List α) (i : Int) (a : α) : List α :=
  let j := normIdx xs.length i
  xs.take j ++ a :: xs.drop j

/-- `Array.prototype.findIndex`: the index of the first match, `-1` if none. -/
def jsFindIndex (p : α → Bool) (xs : List α) : Int :=
  match xs.findIdx? p with
  | some n => (n : Int)
  | none => -1

end Kanban

namespace UseKanban

open Kanban

/-- Task shape of `useKanban.js`: `{ id, content }`. -/
structure KTask where
  id : Str
  content : Str
deriving DecidableEq, Repr

/-- Column identifiers of `useKanban.js` (`initialColumns`). -/
inductive ColId
  | todo | inprogress | done
deriving DecidableEq, Repr

/-- Board state of `useKanban.js` (`kanban-data`): the three columns' ordered
task lists (column `id`/`title` metadata is constant and omitted). -/
structure Board where
  todo : List KTask
  inprogress : List KTask
  done : List KTask
deriving DecidableEq, Repr

/-- `prev[columnId].tasks`. -/
def Board.get (b : Board) : ColId → List KTask
  | .todo => b.todo
  | .inprogress => b.inprogress
  | .done => b.done

/-- `{ ...prev, [columnId]: { ...prev[columnId], tasks } }`. -/
def Board.set (b : Board) : ColId → List KTask → Board
  | .todo, ts => { b with todo := ts }
  | .inprogress, ts => { b with inprogress := ts }
  | .done, ts => { b with done := ts }

/-- `addTask(columnId, taskContent)` of `useKanban.js` (the fresh uuid is a
parameter). -/
def addTask (b : Board) (columnId : ColId) (taskContent : Str) (newId : Str) :
    Board :=
  b.set columnId (b.get columnId ++ [{ id := newId, content := taskContent }])

/-- `editTask(columnId, taskId, newContent)` of `useKanban.js`. -/
def editTask (b : Board) (columnId : ColId) (taskId : Str) (newContent : Str) :
    Board :=
  b.set columnId ((b.get columnId).map fun task =>
    if task.id == taskId then { task with content := newContent } else task)

/-- `deleteTask(columnId, taskId)` of `useKanban.js`. -/
def deleteTask (b : Board) (columnId : ColId) (taskId : Str) : Board :=
  b.set columnId ((b.get columnId).filter fun task => task.id != taskId)

/-- `moveTask(draggedTask, sourceColumnId, destColumnId, destIndex)` of
`useKanban.js`.  Note that the two `splice` calls use raw JavaScript index
semantics, and that when `sourceColumnId === destColumnId` the later object key
wins, so only the destination list is kept. -/
def moveTask (b : Board) (draggedTask : KTask) (sourceColumnId destColumnId : ColId)
    (destIndex : Int) : Board :=
  let sourceTasks := b.get sourceColumnId
  let taskIndex := jsFindIndex (fun t => t.id == draggedTask.id) sourceTasks
  let sourceTasks := spliceRemoveOne sourceTasks taskIndex
  let destTasks :=
    if sourceColumnId == destColumnId then sourceTasks else b.get destColumnId
  let destTasks := spliceInsert destTasks destIndex draggedTask
  (b.set sourceColumnId sourceTasks).set destColumnId destTasks

end UseKanban

namespace Kanban

/-- `status` field of the REST-backed variants (`'todo' | 'inprogress' |
'testing' | 'completed'`). -/
inductive Status
  | todo | inprogress | testing | completed
deriving DecidableEq, Repr

/-- The wire representation of a status (what the JSON payload carries). -/
def Status.toStr : Status → Str
  | .todo => str "todo"
  | .inprogress => str "inprogress"
  | .testing => str "testing"
  | .completed => str "completed"

/-- Inverse of `Status.toStr`, mirroring the
`over.id === 'todo' || …` / `columns.find(col => col.id === overColumnId)`
checks against the four fixed column ids. -/
def parseStatus (s : Str) : Option Status :=
  if s == str "todo" then some .todo
  else if s == str "inprogress" then some .inprogress
  else if s == str "testing" then some .testing
  else if s == str "completed" then some .completed
  else none

/-- `priority` field (`'P1' | 'P2' | 'P3' | 'P4'`). -/
inductive TPriority
  | P1 | P2 | P3 | P4
deriving DecidableEq, Repr

def TPriority.toStr : TPriority → Str
  | .P1 => str "P1"
  | .P2 => str "P2"
  | .P3 => str "P3"
  | .P4 => str "P4"

/-- `dueStatus` field (`'today' | 'overdue' | 'upcoming'`). -/
inductive DueStatus
  | today | overdue | upcoming
deriving DecidableEq, Repr

/-- Task record of the REST-backed variants (the `Task` interface of
`src/unnamed/part_006`; timestamps are kept as opaque strings). -/
structure Task where
  id : Str
  title : Str
  description : Option Str
  status : Status
  priority : TPriority
  tags : List Str
  dueStatus : DueStatus
  assignee : Option Str
  assigned_to : Option Str
  project : Option Str
  project_color : Option Str
  category : Option Str
  deadline : Option Str
  created_at : Str
  created_by : Str
  user_id : Str
deriving DecidableEq, Repr

/-- `status` field of projects (`'active' | 'completed' | 'paused'`). -/
inductive ProjStatus
  | active | completed | paused
deriving DecidableEq, Repr

/-- Project record (`Project` interface of `src/unnamed/part_006`). -/
structure Project where
  id : Str
  name : Str
  description : Str
  color : Str
  status : ProjStatus
  created_by : Str
  user_id : Str
  created_at : Str
  updated_at : Str
deriving DecidableEq, Repr

/-- Partial task update (`Partial<Task>`): a field is `some v` when the key is
present in the patch object. -/
structure TaskPatch where
  id : Option Str := none
  title : Option Str := none
  description : Option Str := none
  status : Option Status := none
  priority : Option TPriority := none
  tags : Option (List Str) := none
  dueStatus : Option DueStatus := none
  assignee : Option Str := none
  assigned_to : Option Str := none
  project : Option Str := none
  project_color : Option Str := none
  category : Option Str := none
  deadline : Option Str := none
  created_at : Option Str := none
  created_by : Option Str := none
  user_id : Option Str := none
deriving DecidableEq, Repr

/-- `{ ...task, ...updatedTask }`: every key present in the patch overrides the
corresponding task field. -/
def applyPatch (t : Task) (p : TaskPatch) : Task where
  id := p.id.getD t.id
  title := p.title.getD t.title
  description := match p.description with | some d => some d | none => t.description
  status := p.status.getD t.status
  priority := p.priority.getD t.priority
  tags := p.tags.getD t.tags
  dueStatus := p.dueStatus.getD t.dueStatus
  assignee := match p.assignee with | some a => some a | none => t.assignee
  assigned_to := match p.assigned_to with | some a => some a | none => t.assigned_to
  project := match p.project with | some a => some a | none => t.project
  project_color := match p.project_color with | some a => some a | none => t.project_color
  category := match p.category with | some a => some a | none => t.category
  deadline := match p.deadline with | some a => some a | none => t.deadline
  created_at := p.created_at.getD t.created_at
  created_by := p.created_by.getD t.created_by
  user_id := p.user_id.getD t.user_id

/-- Remote calls issued by the board handlers. -/
inductive ApiCall
  | getTasks
  | getProjects
  | getAnalytics
  | postTask (payload : TaskPatch)
  | putStatus (taskId : Str) (status : Str)
  | putPatch (taskId : Str) (patch : TaskPatch)
  | deleteTask (taskId : Str)
deriving DecidableEq, Repr

/-- Observable effects of a handler, in chronological order: a remote call, a
local React state update, or a `console.error`. -/
inductive Event
  | api (c : ApiCall)
  | localUpdate
  | logError
deriving DecidableEq, Repr

def Event.isApi : Event → Bool
  | .api _ => true
  | _ => false

def Event.isLocal : Event → Bool
  | .localUpdate => true
  | _ => false

def Event.isError : Event → Bool
  | .logError => true
  | _ => false

/-- The remote calls contained in an effect trace. -/
def callsOf (tr : List Event) : List ApiCall :=
  tr.filterMap fun e => match e with | .api c => some c | _ => none

/-- How many errors a trace reports. -/
def errorsOf (tr : List Event) : Nat := tr.countP Event.isError

/-- `true` iff some local state update happens strictly before the first
remote call of the trace (the ordering demanded by an optimistic-first
policy). -/
def localBeforeApi (tr : List Event) : Bool :=
  match tr.findIdx? Event.isLocal, tr.findIdx? Event.isApi with
  | some i, some j => decide (i < j)
  | _, _ => false

/-- Outcome of an awaited remote call: success carrying the response payload,
or an axios error carrying the optional HTTP status of its response. -/
inductive Outcome (α : Type)
  | ok (response : α)
  | err (status : Option Nat)
deriving DecidableEq, Repr

/-- Outcome of a remote call whose response body is unused. -/
abbrev PutResult := Outcome Unit

end Kanban


namespace AppJs

open Kanban

/-- Component state of the board in `src/frontend/src/App.js` (the pieces the
board logic reads and writes; purely presentational flags are omitted).  The
bearer token is the ambient axios default plus `localStorage` entry. -/
structure AState where
  token : Option Str
  user : Option Str
  tasks : List Task
  users : List Str
  projects : List Str
  analytics : Option Str
deriving DecidableEq, Repr

/-- `handleLogout` of `App.js`: clears the stored credential and resets the
session state. -/
def handleLogout (s : AState) : AState :=
  { s with token := none, user := none, tasks := [], users := [],
           projects := [], analytics := none }

/-- Column ids of the `columns` constant of `App.js`. -/
def columnIds : List Status := [.todo, .inprogress, .testing, .completed]

/-- `getTasksByStatus(status)` of `App.js`. -/
def getTasksByStatus (status : Status) (tasks : List Task) : List Task :=
  tasks.filter fun task => task.status == status

/-- `fetchTasks` of `App.js`: one GET; on success replace the task list, on
failure log once and, for a 401 response, log out. -/
def fetchTasks (s : AState) (res : Outcome (List Task)) : AState × List Event :=
  match res with
  | .ok data => ({ s with tasks := data }, [.api .getTasks, .localUpdate])
  | .err st =>
      if st == some 401 then (handleLogout s, [.api .getTasks, .logError, .localUpdate])
      else (s, [.api .getTasks, .logError])

/-- The `targetColumn` computation of `handleDragEnd` in `App.js`: a drop on a
column uses that column's id, a drop on another task uses that task's
status. -/
def targetColumn (s : AState) (overId : Str) : Option Status :=
  match parseStatus overId with
  | some c => some c
  | none => (s.tasks.find? fun task => task.id == overId).map Task.status

/-- `handleDragEnd` of `App.js` (lines 1095-1124): guard, then
`await axios.put(.../tasks/id, { status })`, then the local update and an
analytics refresh on success, or a single `console.error` on failure. -/
def handleDragEnd (s : AState) (activeId : Str) (over : Option Str)
    (res : PutResult) : AState × List Event :=
  match over with
  | none => (s, [])
  | some overId =>
    match s.tasks.find? (fun task => task.id == activeId), targetColumn s overId with
    | some activeTask, some target =>
      if activeTask.status == target then (s, [])
      else
        match res with
        | .ok _ =>
            ({ s with tasks := s.tasks.map fun task =>
                if task.id == activeTask.id then { activeTask with status := target }
                else task },
             [.api (.putStatus activeTask.id target.toStr), .localUpdate,
              .api .getAnalytics])
        | .err _ => (s, [.api (.putStatus activeTask.id target.toStr), .logError])
    | _, _ => (s, [])

/-- `handleAddTask` of `App.js`: POST first, append the server-created task on
success (plus an analytics refresh), log once on failure. -/
def handleAddTask (s : AState) (taskData : TaskPatch) (res : Outcome Task) :
    AState × List Event :=
  match res with
  | .ok created =>
      ({ s with tasks := s.tasks ++ [created] },
       [.api (.postTask taskData), .localUpdate, .api .getAnalytics])
  | .err _ => (s, [.api (.postTask taskData), .logError])

end AppJs

namespace Part006

open Kanban

/-- Session state of the variant in `src/unnamed/part_006` (the fields its
board handlers read and write). -/
structure SessionState where
  token : Option Str
  user : Option Str
  tasks : List Task
  projects : List Project
deriving DecidableEq, Repr

/-- `handleLogout` of `part_006`. -/
def handleLogout (s : SessionState) : SessionState :=
  { s with token := none, user := none, tasks := [], projects := [] }

/-- `fetchTasks` of `part_006` (lines 1593-1606). -/
def fetchTasks (s : SessionState) (res : Outcome (List Task)) :
    SessionState × List Event :=
  match res with
  | .ok data => ({ s with tasks := data }, [.api .getTasks, .localUpdate])
  | .err st =>
      if st == some 401 then (handleLogout s, [.api .getTasks, .logError, .localUpdate])
      else (s, [.api .getTasks, .logError])

/-- `fetchProjects` of `part_006` (lines 1609-1622): one GET; on success
replace the project list, on failure log once and, for a 401 response, log
out. -/
def fetchProjects (s : SessionState) (res : Outcome (List Project)) :
    SessionState × List Event :=
  match res with
  | .ok data => ({ s with projects := data }, [.api .getProjects, .localUpdate])
  | .err st =>
      if st == some 401 then
        (handleLogout s, [.api .getProjects, .logError, .localUpdate])
      else (s, [.api .getProjects, .logError])

/-- `updateTaskStatus` of `part_006` (lines 1688-1702): PUT
`{ status: newStatus }` first; on success update the task in place; on failure
log once and, for a 401 response, tear the session down. -/
def updateTaskStatus (s : SessionState) (taskId : Str) (newStatus : Status)
    (res : PutResult) : SessionState × List Event :=
  match res with
  | .ok _ =>
      ({ s with tasks := s.tasks.map fun task =>
          if task.id == taskId then { task with status := newStatus } else task },
       [.api (.putStatus taskId newStatus.toStr), .localUpdate])
  | .err st =>
      if st == some 401 then
        (handleLogout s, [.api (.putStatus taskId newStatus.toStr), .logError, .localUpdate])
      else
        (s, [.api (.putStatus taskId newStatus.toStr), .logError])

/-- `handleDragEnd` of `part_006` (lines 1670-1685): no-op unless the dragged
id resolves to a task and the drop target is one of the four column ids. -/
def handleDragEnd (s : SessionState) (activeId : Str) (over : Option Str)
    (res : PutResult) : SessionState × List Event :=
  match over with
  | none => (s, [])
  | some overId =>
    match s.tasks.find? (fun task => task.id == activeId) with
    | none => (s, [])
    | some _ =>
      match parseStatus overId with
      | some newStatus => updateTaskStatus s activeId newStatus res
      | none => (s, [])

/-- `handleSaveTask` of `part_006` (lines 1736-1748): PUT the patch, merge it
into the task on success (`{ ...task, ...updatedTask }`), log once on
failure (no 401 handling on this path). -/
def handleSaveTask (s : SessionState) (taskId : Str) (updatedTask : TaskPatch)
    (res : PutResult) : SessionState × List Event :=
  match res with
  | .ok _ =>
      ({ s with tasks := s.tasks.map fun task =>
          if task.id == taskId then applyPatch task updatedTask else task },
       [.api (.putPatch taskId updatedTask), .localUpdate])
  | .err _ => (s, [.api (.putPatch taskId updatedTask), .logError])

/-- `handleDeleteTask` of `part_006`. -/
def handleDeleteTask (s : SessionState) (taskId : Str) (res : PutResult) :
    SessionState × List Event :=
  match res with
  | .ok _ =>
      ({ s with tasks := s.tasks.filter fun task => task.id != taskId },
       [.api (.deleteTask taskId), .localUpdate])
  | .err _ => (s, [.api (.deleteTask taskId), .logError])

/-- `handleCreateTask` of `part_006`: POST a payload (note: without a `status`
key), append the server-created task on success, log once and tear down on a
401 failure. -/
def handleCreateTask (s : SessionState) (payload : TaskPatch) (res : Outcome Task) :
    SessionState × List Event :=
  match res with
  | .ok created =>
      ({ s with tasks := s.tasks ++ [created] },
       [.api (.postTask payload), .localUpdate])
  | .err st =>
      if st == some 401 then
        (handleLogout s, [.api (.postTask payload), .logError, .localUpdate])
      else
        (s, [.api (.postTask payload), .logError])

/-- `task.title.toLowerCase().includes(searchTerm.toLowerCase()) || …` of the
`filteredTasks` computation (lines 1834-1843). -/
def matchesSearch (task : Task) (searchTerm : Str) : Bool :=
  let q := jsToLower searchTerm
  strContains (jsToLower task.title) q
    || (match task.description with
        | some d => strContains (jsToLower d) q
        | none => false)
    || task.tags.any fun tag => strContains (jsToLower tag) q

/-- `filteredTasks` of `part_006`: search term, priority filter and status
filter applied to the task list. -/
def filteredTasks (searchTerm priorityFilter statusFilter : Str)
    (tasks : List Task) : List Task :=
  tasks.filter fun task =>
    matchesSearch task searchTerm
      && (priorityFilter == str "all" || task.priority.toStr == priorityFilter)
      && (statusFilter == str "all" || task.status.toStr == statusFilter)

/-- The task list of one column of the `columns` array of `part_006` (lines
1845-1874): the filtered view partitioned by status. -/
def columnTasks (st : Status) (searchTerm priorityFilter statusFilter : Str)
    (tasks : List Task) : List Task :=
  (filteredTasks searchTerm priorityFilter statusFilter tasks).filter
    fun task => task.status == st

/-- Comma-splitting of the tag input (`formData.tags.split(',')`). -/
def splitOnComma : Str → List Str
  | [] => [[]]
  | c :: t =>
    if c == ',' then [] :: splitOnComma t
    else
      match splitOnComma t with
      | [] => [[c]]
      | h :: r => (c :: h) :: r

/-- `tag.trim()`. -/
def trimStr (s : Str) : Str :=
  ((s.dropWhile Char.isWhitespace).reverse.dropWhile Char.isWhitespace).reverse

/-- `formData.tags.split(',').map(tag => tag.trim()).filter(tag => tag.length > 0)`. -/
def splitTags (raw : Str) : List Str :=
  ((splitOnComma raw).map trimStr).filter fun tag => decide (0 < tag.length)

/-- Form state of `TaskEditModal` in `part_006`. -/
structure EditForm where
  title : Str
  description : Str
  priority : TPriority
  tags : Str
  dueStatus : DueStatus
  assignee : Str
deriving DecidableEq, Repr

/-- The patch `TaskEditModal.handleSubmit` passes to `onSave`
(`{ ...formData, tags: … }`): it carries no `status` key. -/
def editModalPatch (f : EditForm) : TaskPatch :=
  { title := some f.title
    description := some f.description
    priority := some f.priority
    tags := some (splitTags f.tags)
    dueStatus := some f.dueStatus
    assignee := some f.assignee }

end Part006

namespace Part004

open Kanban

/-- Task shape of the variant in `src/unnamed/part_004` (untyped JavaScript:
`status` and `priority` are raw strings). -/
structure PTask where
  id : Str
  title : Str
  description : Str
  priority : Str
  status : Str
  assigned_to : Str
  deadline : Option Str
deriving DecidableEq, Repr

/-- The `result` argument of a `react-beautiful-dnd` drag end: dragged id,
source `(droppableId, index)`, optional destination `(droppableId, index)`. -/
structure DragResult where
  draggableId : Str
  source : Str × Int
  destination : Option (Str × Int)
deriving DecidableEq, Repr

/-- `handleDragEnd` of `part_004` (lines 754-779): return early only when
there is no destination or when both droppable and index are unchanged;
otherwise PUT `{ status: destination.droppableId }` and update locally on
success. -/
def handleDragEnd (tasks : List PTask) (r : DragResult) (res : PutResult) :
    List PTask × List Event :=
  match r.destination with
  | none => (tasks, [])
  | some dest =>
    if dest.1 == r.source.1 && dest.2 == r.source.2 then (tasks, [])
    else
      match tasks.find? (fun t => t.id == r.draggableId) with
      | none => (tasks, [])
      | some task =>
        match res with
        | .ok _ =>
            (tasks.map fun t =>
               if t.id == r.draggableId then { task with status := dest.1 } else t,
             [.api (.putStatus r.draggableId dest.1), .localUpdate])
        | .err _ => (tasks, [.api (.putStatus r.draggableId dest.1), .logError])

end Part004

namespace Part006

open Kanban

/-- Task-list states reachable through the board operations of `part_006`:
the initial empty list (`useState<Task[]>([])`), then create / move / edit /
delete, each applied through the corresponding handler with a successful
remote outcome (`t` being the server-created task in the `create` case). -/
inductive Reachable : List Task → Prop
  | init : Reachable []
  | create (s : SessionState) (payload : TaskPatch) (t : Task) :
      Reachable s.tasks → Reachable (handleCreateTask s payload (.ok t)).1.tasks
  | move (s : SessionState) (taskId : Str) (newStatus : Status) :
      Reachable s.tasks →
      Reachable (updateTaskStatus s taskId newStatus (.ok ())).1.tasks
  | edit (s : SessionState) (taskId : Str) (patch : TaskPatch) :
      Reachable s.tasks → Reachable (handleSaveTask s taskId patch (.ok ())).1.tasks
  | delete (s : SessionState) (taskId : Str) :
      Reachable s.tasks → Reachable (handleDeleteTask s taskId (.ok ())).1.tasks

/-- Substring relation, written from the spec's words ("substring match"). -/
def specIsSubstring (needle hay : Str) : Prop :=
  ∃ pre post, hay = pre ++ needle ++ post

/-- Modelled from the spec: "Matching is case-insensitive substring match over
title, description, and tags."  A spec-side restatement of the search matcher,
to be compared with the code-level `matchesSearch`. -/
def specSearchMatches (task : Task) (term : Str) : Prop :=
  specIsSubstring (jsToLower term) (jsToLower task.title)
    ∨ (∃ d, task.description = some d ∧
        specIsSubstring (jsToLower term) (jsToLower d))
    ∨ (∃ tag ∈ task.tags, specIsSubstring (jsToLower term) (jsToLower tag))

end Part006

namespace Samples

open Kanban

/-- Concrete tasks and boards used by the witnesses and counterexamples. -/
def kt1 : UseKanban.KTask := { id := str "t1", content := str "one" }

def kd1 : UseKanban.KTask := { id := str "d1", content := str "d-one" }

def kd2 : UseKanban.KTask := { id := str "d2", content := str "d-two" }

def kGhost : UseKanban.KTask := { id := str "zz", content := str "ghost" }

def kBoard : UseKanban.Board := { todo := [kt1], inprogress := [], done := [kd1, kd2] }

/-- A REST-variant task with the given id, title and status, and neutral
remaining fields. -/
def mkTask (id title : Str) (status : Status) : Task where
  id := id
  title := title
  description := none
  status := status
  priority := .P2
  tags := []
  dueStatus := .upcoming
  assignee := none
  assigned_to := none
  project := none
  project_color := none
  category := none
  deadline := none
  created_at := str "2025-01-01"
  created_by := str "admin"
  user_id := str "u1"

def taskA : Task := mkTask (str "a") (str "Task A") .todo

def taskB : Task := mkTask (str "b") (str "Task B") .inprogress

def appState : AppJs.AState :=
  { token := some (str "tok"), user := some (str "admin"),
    tasks := [taskA, taskB], users := [], projects := [], analytics := none }

def session : Part006.SessionState :=
  { token := some (str "tok"), user := some (str "admin"),
    tasks := [taskA, taskB], projects := [] }

def pTask : Part004.PTask :=
  { id := str "p1", title := str "P Task", description := str "",
    priority := str "medium", status := str "todo",
    assigned_to := str "user1", deadline := none }

/-- A drop in the same column at a different index. -/
def dragSameCol : Part004.DragResult :=
  { draggableId := str "p1", source := (str "todo", 0),
    destination := some (str "todo", 1) }

/-- A drop in a different column. -/
def dragDiffCol : Part004.DragResult :=
  { draggableId := str "p1", source := (str "todo", 0),
    destination := some (str "inprogress", 0) }

/-- A patch that smuggles a `status` field through the edit path. -/
def statusPatch : Kanban.TaskPatch := { status := some Status.completed }

def emptySession : Part006.SessionState :=
  { token := none, user := none, tasks := [], projects := [] }

def editForm : Part006.EditForm :=
  { title := str "T", description := str "", priority := .P2,
    tags := str "a, b", dueStatus := .upcoming, assignee := str "" }

end Samples

namespace Kanban

theorem normIdx_coe (len k : Nat) (h : k ≤ len) : normIdx len (k : Int) = k := by
  simp [normIdx, Int.toNat_ofNat, Nat.min_eq_left h]

theorem normIdx_of_nonneg (len : Nat) (i : Int) (h : 0 ≤ i) :
    normIdx len i = min i.toNat len := by
  simp [normIdx, Int.not_lt.mpr h]

/-- Removal at a valid non-negative index. -/
theorem spliceRemoveOne_coe (xs : List α) (k : Nat) (h : k ≤ xs.length) :
    spliceRemoveOne xs (k : Int) = xs.take k ++ xs.drop (k + 1) := by
  simp [spliceRemoveOne, normIdx_coe _ _ h]

/-- Insertion at a non-negative index lands at the index clamped to the list
length. -/
theorem spliceInsert_of_nonneg (xs : List α) (i : Int) (a : α) (h : 0 ≤ i) :
    spliceInsert xs i a =
      xs.take (min i.toNat xs.length) ++ a :: xs.drop (min i.toNat xs.length) := by
  simp [spliceInsert, normIdx_of_nonneg _ _ h]

/-- Inserting anywhere is, up to permutation, a `cons`. -/
theorem spliceInsert_perm (xs : List α) (i : Int) (a : α) :
    List.Perm (spliceInsert xs i a) (a :: xs) := by
  have h : List.Perm
      (xs.take (normIdx xs.length i) ++ a :: xs.drop (normIdx xs.length i))
      (a :: (xs.take (normIdx xs.length i) ++ xs.drop (normIdx xs.length i))) :=
    List.perm_middle
  simpa [spliceInsert, List.take_append_drop] using h

/-- A list is, up to permutation, its element at `k` consed onto the removal
at `k`. -/
theorem perm_cons_removeAt (xs : List α) (k : Nat) (h : k < xs.length) :
    List.Perm xs (xs[k] :: (xs.take k ++ xs.drop (k + 1))) := by
  conv_lhs => rw [← List.take_append_drop k xs, List.drop_eq_getElem_cons h]
  exact List.perm_middle

theorem findIdx?_lt_length {xs : List α} {p : α → Bool} {k : Nat}
    (h : xs.findIdx? p = some k) : k < xs.length := by
  rw [List.findIdx?_eq_some_iff_getElem] at h
  exact h.1

/-- `hay.includes('')` is `true`. -/
theorem strContains_nil (hay : Str) : strContains hay [] = true := by
  cases hay <;> simp [strContains, List.isPrefixOf, List.isEmpty]

theorem isPrefixOf_iff_exists {l₁ l₂ : Str} :
    l₁.isPrefixOf l₂ = true ↔ ∃ post, l₂ = l₁ ++ post := by
  induction l₁ generalizing l₂ with
  | nil => simp [List.isPrefixOf]
  | cons c t ih =>
    cases l₂ with
    | nil => simp [List.isPrefixOf]
    | cons c' t' =>
      simp only [List.isPrefixOf, Bool.and_eq_true, beq_iff_eq, ih, List.cons_append,
        List.cons.injEq]
      constructor
      · rintro ⟨rfl, post, rfl⟩
        exact ⟨post, rfl, rfl⟩
      · rintro ⟨post, rfl, rfl⟩
        exact ⟨rfl, post, rfl⟩

/-- The executable `includes` agrees with the mathematical substring
relation. -/
theorem strContains_iff {hay needle : Str} :
    strContains hay needle = true ↔ ∃ pre post, hay = pre ++ needle ++ post := by
  induction hay with
  | nil =>
    simp only [strContains, List.isEmpty_iff]
    constructor
    · rintro rfl
      exact ⟨[], [], rfl⟩
    · rintro ⟨pre, post, h⟩
      rcases List.append_eq_nil.mp h.symm with ⟨h₁, h₂⟩
      exact (List.append_eq_nil.mp h₁).2
  | cons c t ih =>
    simp only [strContains, Bool.or_eq_true, ih, isPrefixOf_iff_exists]
    constructor
    · rintro (⟨post, h⟩ | ⟨pre, post, rfl⟩)
      · exact ⟨[], post, by simpa using h⟩
      · exact ⟨c :: pre, post, rfl⟩
    · rintro ⟨pre, post, h⟩
      cases pre with
      | nil => exact .inl ⟨post, by simpa using h⟩
      | cons p ps =>
        simp only [List.cons_append, List.cons.injEq] at h
        exact .inr ⟨ps, post, h.2⟩

end Kanban

namespace UseKanban

theorem Board.get_set_self (b : Board) (c : ColId) (ts : List KTask) :
    (b.set c ts).get c = ts := by
  cases c <;> rfl

theorem Board.get_set_ne (b : Board) (c c' : ColId) (ts : List KTask)
    (h : c' ≠ c) : (b.set c ts).get c' = b.get c' := by
  cases c <;> cases c' <;> first | rfl | exact absurd rfl h

theorem Board.set_get_self (b : Board) (c : ColId) : b.set c (b.get c) = b := by
  cases b; cases c <;> rfl

end UseKanban

namespace UseKanban

theorem Board.set_set (b : Board) (c : ColId) (ts ts' : List KTask) :
    (b.set c ts).set c ts' = b.set c ts' := by
  cases b; cases c <;> rfl

/-- A same-column `moveTask` with the dragged task stored at the found index
permutes that column and touches no other column. -/
theorem moveTask_same_col_perm (b : Board) (dragged : KTask) (c : ColId)
    (i : Int) (k : Nat)
    (hfind : (b.get c).findIdx? (fun t => t.id == dragged.id) = some k)
    (hget : (b.get c)[k]? = some dragged) :
    List.Perm ((moveTask b dragged c c i).get c) (b.get c) ∧
      ∀ c', c' ≠ c → (moveTask b dragged c c i).get c' = b.get c' := by
  have hk := Kanban.findIdx?_lt_length hfind
  have hgetE : (b.get c)[k] = dragged := by
    have h := List.getElem?_eq_getElem hk
    rw [h] at hget
    exact Option.some.inj hget
  unfold moveTask
  simp only [Kanban.jsFindIndex, hfind, beq_self_eq_true, if_true, Board.set_set]
  constructor
  · rw [Board.get_set_self, Kanban.spliceRemoveOne_coe _ _ hk.le]
    have h1 := Kanban.spliceInsert_perm
      ((b.get c).take k ++ (b.get c).drop (k + 1)) i dragged
    have h2 := Kanban.perm_cons_removeAt (b.get c) k hk
    rw [hgetE] at h2
    exact h1.trans h2.symm
  · intro c' hc'
    rw [Board.get_set_ne _ _ _ _ hc']

end UseKanban

open Kanban

/-- On a failed remote call, `handleDragEnd` of `App.js` either did nothing or
issued exactly one call and logged one error, leaving the state untouched. -/
theorem appjs_dragEnd_err_shape (s : AppJs.AState) (aid : Str) (ov : Option Str)
    (e : Option Nat) :
    AppJs.handleDragEnd s aid ov (.err e) = (s, []) ∨
      ∃ c, AppJs.handleDragEnd s aid ov (.err e) = (s, [.api c, .logError]) := by
  unfold AppJs.handleDragEnd
  cases ov with
  | none => exact .inl rfl
  | some overId =>
    cases hf : s.tasks.find? (fun task => task.id == aid) with
    | none => simp [hf]
    | some t =>
      cases ht : AppJs.targetColumn s overId with
      | none => simp [ht]
      | some target =>
        cases hst : (t.status == target) with
        | true => exact .inl (by simp [ht, hst, beq_iff_eq.mp hst])
        | false =>
          refine .inr ⟨.putStatus t.id target.toStr, ?_⟩
          simp [ht, beq_eq_false_iff_ne.mp hst]

/-- The effect trace of `handleDragEnd` of `App.js` is empty or starts with a
remote call. -/
theorem appjs_dragEnd_head (s : AppJs.AState) (aid : Str) (ov : Option Str)
    (res : PutResult) :
    (AppJs.handleDragEnd s aid ov res).2 = [] ∨
      ∃ c, ((AppJs.handleDragEnd s aid ov res).2).head? = some (.api c) := by
  unfold AppJs.handleDragEnd
  cases ov with
  | none => exact .inl rfl
  | some overId =>
    cases hf : s.tasks.find? (fun task => task.id == aid) with
    | none => simp [hf]
    | some t =>
      cases ht : AppJs.targetColumn s overId with
      | none => simp [ht]
      | some target =>
        cases hst : (t.status == target) with
        | true => exact .inl (by simp [ht, hst, beq_iff_eq.mp hst])
        | false =>
          refine .inr ⟨.putStatus t.id target.toStr, ?_⟩
          cases res with
          | ok r => simp [ht, beq_eq_false_iff_ne.mp hst]
          | err e => simp [ht, beq_eq_false_iff_ne.mp hst]

/-- `updateTaskStatus` of `part_006` always issues the one status-only PUT as
its first effect. -/
theorem p6_update_head (s : Part006.SessionState) (tid : Str) (st : Status)
    (res : PutResult) :
    ((Part006.updateTaskStatus s tid st res).2).head? =
      some (.api (.putStatus tid st.toStr)) := by
  unfold Part006.updateTaskStatus
  cases res with
  | ok r => rfl
  | err e =>
    cases he : (e == some 401) with
    | true => simp [he]
    | false => simp [he]

/-- A non-401 failure of `updateTaskStatus` of `part_006` leaves the state
untouched and logs exactly one error after the one PUT. -/
theorem p6_update_err (s : Part006.SessionState) (tid : Str) (st : Status)
    (e : Option Nat) (he : e ≠ some 401) :
    Part006.updateTaskStatus s tid st (.err e) =
      (s, [.api (.putStatus tid st.toStr), .logError]) := by
  unfold Part006.updateTaskStatus
  simp [beq_eq_false_iff_ne.mpr he]

/-- Every failure of `updateTaskStatus` of `part_006` — 401 included — logs
exactly one error. -/
theorem p6_update_err_count (s : Part006.SessionState) (tid : Str) (st : Status)
    (e : Option Nat) :
    errorsOf (Part006.updateTaskStatus s tid st (.err e)).2 = 1 := by
  by_cases he : e = some 401
  · subst he; rfl
  · rw [p6_update_err s tid st e he]; rfl

/-- A non-401 failure of `handleCreateTask` of `part_006` leaves the state
untouched and logs exactly one error after the one POST. -/
theorem p6_create_err (s : Part006.SessionState) (payload : TaskPatch)
    (e : Option Nat) (he : e ≠ some 401) :
    Part006.handleCreateTask s payload (.err e) =
      (s, [.api (.postTask payload), .logError]) := by
  unfold Part006.handleCreateTask
  simp [beq_eq_false_iff_ne.mpr he]

/-- `handleCreateTask` of `part_006` always issues the one POST as its first
effect. -/
theorem p6_create_head (s : Part006.SessionState) (payload : TaskPatch)
    (res : Outcome Task) :
    ((Part006.handleCreateTask s payload res).2).head? =
      some (.api (.postTask payload)) := by
  cases res with
  | ok t => rfl
  | err e =>
    by_cases he : e = some 401
    · subst he; rfl
    · rw [p6_create_err s payload e he]; rfl

/-- Every failure of `handleCreateTask` of `part_006` — 401 included — logs
exactly one error. -/
theorem p6_create_err_count (s : Part006.SessionState) (payload : TaskPatch)
    (e : Option Nat) :
    errorsOf (Part006.handleCreateTask s payload (.err e)).2 = 1 := by
  by_cases he : e = some 401
  · subst he; rfl
  · rw [p6_create_err s payload e he]; rfl

/-- On a failed remote call, `handleDragEnd` of `part_004` either did nothing
or issued one call and logged one error, leaving the task list untouched. -/
theorem p4_dragEnd_err_shape (tasks : List Part004.PTask) (r : Part004.DragResult)
    (e : Option Nat) :
    Part004.handleDragEnd tasks r (.err e) = (tasks, []) ∨
      ∃ c, Part004.handleDragEnd tasks r (.err e) = (tasks, [.api c, .logError]) := by
  unfold Part004.handleDragEnd
  cases hd : r.destination with
  | none => exact .inl rfl
  | some dest =>
    cases hsame : (dest.1 == r.source.1 && dest.2 == r.source.2) with
    | true => simp [hsame]
    | false =>
      cases hf : tasks.find? (fun t => t.id == r.draggableId) with
      | none => simp [hsame, hf]
      | some task =>
        exact .inr ⟨.putStatus r.draggableId dest.1, by simp [hsame, hf]⟩

/-- The effect trace of `handleDragEnd` of `part_004` is empty or starts with
a remote call. -/
theorem p4_dragEnd_head (tasks : List Part004.PTask) (r : Part004.DragResult)
    (res : PutResult) :
    (Part004.handleDragEnd tasks r res).2 = [] ∨
      ∃ c, ((Part004.handleDragEnd tasks r res).2).head? = some (.api c) := by
  unfold Part004.handleDragEnd
  cases hd : r.destination with
  | none => exact .inl rfl
  | some dest =>
    cases hsame : (dest.1 == r.source.1 && dest.2 == r.source.2) with
    | true => simp [hsame]
    | false =>
      cases hf : tasks.find? (fun t => t.id == r.draggableId) with
      | none => simp [hsame, hf]
      | some task =>
        refine .inr ⟨.putStatus r.draggableId dest.1, ?_⟩
        cases res with
        | ok u => simp [hsame, hf]
        | err e => simp [hsame, hf]

/-- C1 (corrected): if the remote update of a move fails with a non-401 error,
the board state after the failed call equals the board state before it, and
exactly one error is reported: in `App.js` this holds for every failure of
`handleDragEnd` that actually issued a call, and in `part_006` for every
non-401 failure of `updateTaskStatus`.  (A 401 failure in `part_006` instead
tears the session down and clears the board — see the counterexample.) -/
theorem C1_move_failure_preserves_state_amended
    (s : AppJs.AState) (aid : Str) (ov : Option Str) (e : Option Nat)
    (hcall : (AppJs.handleDragEnd s aid ov (.err e)).2 ≠ [])
    (s6 : Part006.SessionState) (tid : Str) (st : Status) (e6 : Option Nat)
    (h401 : e6 ≠ some 401) :
    ((AppJs.handleDragEnd s aid ov (.err e)).1 = s ∧
      errorsOf (AppJs.handleDragEnd s aid ov (.err e)).2 = 1) ∧
    ((Part006.updateTaskStatus s6 tid st (.err e6)).1 = s6 ∧
      errorsOf (Part006.updateTaskStatus s6 tid st (.err e6)).2 = 1) := by
  constructor
  · rcases appjs_dragEnd_err_shape s aid ov e with h | ⟨c, h⟩
    · rw [h] at hcall; exact absurd rfl hcall
    · rw [h]; exact ⟨rfl, rfl⟩
  · rw [p6_update_err s6 tid st e6 h401]
    exact ⟨rfl, rfl⟩

/-- C1 witness: a concrete failed move in each variant. -/
theorem C1_witness :
    (AppJs.handleDragEnd Samples.appState (str "a") (some (str "completed"))
        (.err none)).1 = Samples.appState ∧
      errorsOf (Part006.updateTaskStatus Samples.session (str "a") .completed
        (.err (some 500))).2 = 1 := by
  have h := C1_move_failure_preserves_state_amended Samples.appState (str "a")
    (some (str "completed")) none (by decide) Samples.session (str "a") .completed
    (some 500) (by decide)
  exact ⟨h.1.1, h.2.2⟩

/-- C1 counterexample: a 401 failure of the move PUT in `part_006` clears the
task list (session teardown), so the board state after the failed call is not
the state before it, refuting the claim as universally stated. -/
theorem C1_counterexample :
    (Part006.updateTaskStatus Samples.session (str "a") .inprogress
        (.err (some 401))).1.tasks = [] ∧
      Samples.session.tasks ≠ [] ∧
      errorsOf (Part006.updateTaskStatus Samples.session (str "a") .inprogress
        (.err (some 401))).2 = 1 := by
  decide

/-- C2 (confirmed): in every task-list state reachable through the board
operations (create, move, edit, delete), every task has one of the four column
statuses, appears in the column list derived for its own status, and appears
in no other column: column membership is exactly the set of tasks whose status
equals the column id. -/
theorem C2_task_in_exactly_one_column (ts : List Task)
    (hreach : Part006.Reachable ts) (t : Task) (ht : t ∈ ts) :
    t.status ∈ AppJs.columnIds ∧
    t ∈ AppJs.getTasksByStatus t.status ts ∧
    ∀ c : Status, c ≠ t.status → t ∉ AppJs.getTasksByStatus c ts := by
  refine ⟨?_, ?_, ?_⟩
  · cases t.status <;> simp [AppJs.columnIds]
  · exact List.mem_filter.mpr ⟨ht, by simp [AppJs.getTasksByStatus]⟩
  · intro c hc hmem
    have h2 := (List.mem_filter.mp hmem).2
    exact hc (beq_iff_eq.mp h2).symm

/-- C2 witness: a reachable one-task board, with the task in its own column
and absent from another. -/
theorem C2_witness :
    Samples.taskA ∈ AppJs.getTasksByStatus Samples.taskA.status [Samples.taskA] ∧
      Samples.taskA ∉ AppJs.getTasksByStatus .completed [Samples.taskA] := by
  have h := C2_task_in_exactly_one_column [Samples.taskA]
    (Part006.Reachable.create Samples.emptySession {} Samples.taskA
      Part006.Reachable.init)
    Samples.taskA (by decide)
  exact ⟨h.2.1, h.2.2 .completed (by decide)⟩

/-- C3 (corrected): every mutating operation (create, move, edit, delete), in
each REST-backed variant (`App.js`, `part_006`, `part_004`), issues its remote
call first and applies the local change only on success: the effect trace is empty or begins with the remote
call, never with a local update.  On failure the error is surfaced as exactly
one non-fatal console log whenever a call was issued, and the local state is
left untouched — there is no optimistic change to revert — unconditionally for
the `App.js` and `part_004` handlers and for the edit and delete handlers of
`part_006`, and for non-401 failures of the move and create handlers of
`part_006` (whose 401 failures still log exactly one error). -/
theorem C3_remote_first_amended
    (s : AppJs.AState) (aid : Str) (ov : Option Str) (res : PutResult)
    (taskData : TaskPatch) (resAdd : Outcome Task)
    (s6 : Part006.SessionState) (tid : Str) (st : Status) (res6 : PutResult)
    (taskId : Str) (patch : TaskPatch) (res7 : PutResult)
    (delId : Str) (res8 : PutResult)
    (payload : TaskPatch) (res9 : Outcome Task)
    (tasks4 : List Part004.PTask) (r4 : Part004.DragResult) (res4 : PutResult)
    (e e6 : Option Nat) (he6 : e6 ≠ some 401) :
    ((AppJs.handleDragEnd s aid ov res).2 = [] ∨
      ∃ c, ((AppJs.handleDragEnd s aid ov res).2).head? = some (.api c)) ∧
    ((AppJs.handleAddTask s taskData resAdd).2).head? =
      some (.api (.postTask taskData)) ∧
    ((Part006.updateTaskStatus s6 tid st res6).2).head? =
      some (.api (.putStatus tid st.toStr)) ∧
    ((Part006.handleSaveTask s6 taskId patch res7).2).head? =
      some (.api (.putPatch taskId patch)) ∧
    ((Part006.handleDeleteTask s6 delId res8).2).head? =
      some (.api (.deleteTask delId)) ∧
    ((Part006.handleCreateTask s6 payload res9).2).head? =
      some (.api (.postTask payload)) ∧
    ((Part004.handleDragEnd tasks4 r4 res4).2 = [] ∨
      ∃ c, ((Part004.handleDragEnd tasks4 r4 res4).2).head? = some (.api c)) ∧
    ((AppJs.handleDragEnd s aid ov (.err e)).1 = s ∧
      Event.localUpdate ∉ (AppJs.handleDragEnd s aid ov (.err e)).2 ∧
      ((AppJs.handleDragEnd s aid ov (.err e)).2 ≠ [] →
        errorsOf (AppJs.handleDragEnd s aid ov (.err e)).2 = 1)) ∧
    (AppJs.handleAddTask s taskData (.err e) =
      (s, [.api (.postTask taskData), .logError])) ∧
    (errorsOf (Part006.updateTaskStatus s6 tid st (.err e)).2 = 1 ∧
      Part006.updateTaskStatus s6 tid st (.err e6) =
        (s6, [.api (.putStatus tid st.toStr), .logError])) ∧
    (Part006.handleSaveTask s6 taskId patch (.err e) =
      (s6, [.api (.putPatch taskId patch), .logError])) ∧
    (Part006.handleDeleteTask s6 delId (.err e) =
      (s6, [.api (.deleteTask delId), .logError])) ∧
    (errorsOf (Part006.handleCreateTask s6 payload (.err e)).2 = 1 ∧
      Part006.handleCreateTask s6 payload (.err e6) =
        (s6, [.api (.postTask payload), .logError])) ∧
    ((Part004.handleDragEnd tasks4 r4 (.err e)).1 = tasks4 ∧
      Event.localUpdate ∉ (Part004.handleDragEnd tasks4 r4 (.err e)).2 ∧
      ((Part004.handleDragEnd tasks4 r4 (.err e)).2 ≠ [] →
        errorsOf (Part004.handleDragEnd tasks4 r4 (.err e)).2 = 1)) := by
  refine ⟨appjs_dragEnd_head s aid ov res, ?_, p6_update_head s6 tid st res6,
    ?_, ?_, p6_create_head s6 payload res9, p4_dragEnd_head tasks4 r4 res4,
    ?_, ?_,
    ⟨p6_update_err_count s6 tid st e, p6_update_err s6 tid st e6 he6⟩,
    ?_, ?_,
    ⟨p6_create_err_count s6 payload e, p6_create_err s6 payload e6 he6⟩, ?_⟩
  · cases resAdd with
    | ok t => rfl
    | err eA => rfl
  · cases res7 with
    | ok u => rfl
    | err eS => rfl
  · cases res8 with
    | ok u => rfl
    | err eD => rfl
  · rcases appjs_dragEnd_err_shape s aid ov e with h | ⟨c, h⟩
    · rw [h]
      exact ⟨rfl, by simp, fun hc => absurd rfl hc⟩
    · rw [h]
      exact ⟨rfl, by simp, fun hc => rfl⟩
  · cases e <;> rfl
  · cases e <;> rfl
  · cases e <;> rfl
  · rcases p4_dragEnd_err_shape tasks4 r4 e with h | ⟨c, h⟩
    · rw [h]
      exact ⟨rfl, by simp, fun hc => absurd rfl hc⟩
    · rw [h]
      exact ⟨rfl, by simp, fun hc => rfl⟩

/-- C3 witness: concrete runs of the create, move, edit, delete and drag
handlers, with a 401 failure exercising the single-error-log conjuncts and a
non-401 failure exercising the state-preservation conjuncts. -/
theorem C3_witness :
    ((Part006.updateTaskStatus Samples.session (str "a") .completed (.ok ())).2).head? =
        some (.api (.putStatus (str "a") (str "completed"))) ∧
      AppJs.handleAddTask Samples.appState {} (.err (some 401)) =
        (Samples.appState, [.api (.postTask {}), .logError]) ∧
      errorsOf (Part006.updateTaskStatus Samples.session (str "a") .completed
        (.err (some 401))).2 = 1 ∧
      Part006.handleSaveTask Samples.session (str "a") {} (.err (some 401)) =
        (Samples.session, [.api (.putPatch (str "a") {}), .logError]) ∧
      Part006.handleCreateTask Samples.session {} (.err (some 500)) =
        (Samples.session, [.api (.postTask {}), .logError]) ∧
      Event.localUpdate ∉
        (Part004.handleDragEnd [Samples.pTask] Samples.dragDiffCol
          (.err (some 401))).2 := by
  have h := C3_remote_first_amended Samples.appState (str "a")
    (some (str "completed")) (.ok ()) {} (.ok Samples.taskA) Samples.session
    (str "a") .completed (.ok ()) (str "a") {} (.ok ()) (str "a") (.ok ())
    {} (.ok Samples.taskA) [Samples.pTask] Samples.dragDiffCol (.ok ())
    (some 401) (some 500) (by decide)
  obtain ⟨a1, a2, a3, a4, a5, a6, a7, f1, f2, f3, f4, f5, f6, f7⟩ := h
  exact ⟨a3, f2, f3.1, f4, f6.2, f7.2.1⟩

/-- C3 counterexample: a successful move in `App.js` has both a local update
and remote calls in its trace, but no local update precedes the first remote
call — the remote call comes first, refuting the local-first policy as
stated. -/
theorem C3_counterexample :
    localBeforeApi (AppJs.handleDragEnd Samples.appState (str "a")
        (some (str "completed")) (.ok ())).2 = false ∧
      ((AppJs.handleDragEnd Samples.appState (str "a") (some (str "completed"))
        (.ok ())).2).any Event.isLocal = true ∧
      ((AppJs.handleDragEnd Samples.appState (str "a") (some (str "completed"))
        (.ok ())).2).any Event.isApi = true := by
  decide

/-- C4 (corrected): in the `useKanban` variant, `moveTask(T, A, B, i)` with `T`
found at index `k` of column `A`, `B` distinct from `A` and `i` non-negative
removes `T` from the list of `A`, inserts it into the list of `B` at `i`
clamped to the interval from `0` to the length of that list, and leaves every
other column untouched.  (A negative `i` is not clamped to `0`: it counts from
the end of the list, JavaScript splice semantics — see the counterexample.)
Status update and persistence live in the `App.js` drag handler: on the board
with task a in todo and task b in inprogress, a successful drop of a on the
completed column yields todo empty, inprogress holding exactly b, completed
holding a with status completed, and the only write sent to the backend is the
status-only PUT. -/
theorem C4_moveTask_amended
    (b : UseKanban.Board) (dragged : UseKanban.KTask)
    (src dst : UseKanban.ColId) (i : Int) (k : Nat)
    (hfind : (b.get src).findIdx? (fun t => t.id == dragged.id) = some k)
    (hne : src ≠ dst) (hi : 0 ≤ i) :
    ((UseKanban.moveTask b dragged src dst i).get src =
        (b.get src).take k ++ (b.get src).drop (k + 1)) ∧
    ((UseKanban.moveTask b dragged src dst i).get dst =
        (b.get dst).take (min i.toNat (b.get dst).length) ++
          dragged :: (b.get dst).drop (min i.toNat (b.get dst).length)) ∧
    (∀ c, c ≠ src → c ≠ dst →
      (UseKanban.moveTask b dragged src dst i).get c = b.get c) ∧
    ((AppJs.handleDragEnd Samples.appState (str "a") (some (str "completed"))
          (.ok ())).1.tasks =
        [{ Samples.taskA with status := .completed }, Samples.taskB] ∧
      AppJs.getTasksByStatus .todo
        (AppJs.handleDragEnd Samples.appState (str "a") (some (str "completed"))
          (.ok ())).1.tasks = [] ∧
      AppJs.getTasksByStatus .inprogress
        (AppJs.handleDragEnd Samples.appState (str "a") (some (str "completed"))
          (.ok ())).1.tasks = [Samples.taskB] ∧
      AppJs.getTasksByStatus .completed
        (AppJs.handleDragEnd Samples.appState (str "a") (some (str "completed"))
          (.ok ())).1.tasks = [{ Samples.taskA with status := .completed }] ∧
      callsOf (AppJs.handleDragEnd Samples.appState (str "a")
          (some (str "completed")) (.ok ())).2 =
        [.putStatus (str "a") (str "completed"), .getAnalytics]) := by
  have hk := findIdx?_lt_length hfind
  have hbeq : (src == dst) = false := by simpa using hne
  refine ⟨?_, ?_, ?_, by decide⟩
  · unfold UseKanban.moveTask
    simp only [jsFindIndex, hfind, hbeq, Bool.false_eq_true, if_false]
    rw [UseKanban.Board.get_set_ne _ _ _ _ hne, UseKanban.Board.get_set_self,
      spliceRemoveOne_coe _ _ (le_of_lt hk)]
  · unfold UseKanban.moveTask
    simp only [jsFindIndex, hfind, hbeq, Bool.false_eq_true, if_false]
    rw [UseKanban.Board.get_set_self, spliceInsert_of_nonneg _ _ _ hi]
  · intro c hcs hcd
    unfold UseKanban.moveTask
    simp only [jsFindIndex, hfind, hbeq, Bool.false_eq_true, if_false]
    rw [UseKanban.Board.get_set_ne _ _ _ _ hcd, UseKanban.Board.get_set_ne _ _ _ _ hcs]

/-- C4 witness: a concrete cross-column move at index 0. -/
theorem C4_witness :
    (UseKanban.moveTask Samples.kBoard Samples.kt1 .todo .done 0).get .todo = [] ∧
      (UseKanban.moveTask Samples.kBoard Samples.kt1 .todo .done 0).get .done =
        [Samples.kt1, Samples.kd1, Samples.kd2] ∧
      (UseKanban.moveTask Samples.kBoard Samples.kt1 .todo .done 0).get
        .inprogress = [] := by
  have h := C4_moveTask_amended Samples.kBoard Samples.kt1 .todo .done 0 0
    (by decide) (by decide) (by decide)
  refine ⟨?_, ?_, ?_⟩
  · rw [h.1]; decide
  · rw [h.2.1]; decide
  · rw [h.2.2.1 .inprogress (by decide) (by decide)]; decide

/-- C4 counterexample: with destination index `-1` and a destination column of
two tasks, the task is inserted at position 1 (JavaScript splice counts a
negative index from the end), not at position 0 as clamping the index to the
interval from 0 to the length would demand, refuting the claim for negative
indices. -/
theorem C4_counterexample :
    (UseKanban.moveTask Samples.kBoard Samples.kt1 .todo .done (-1)).get .done =
        [Samples.kd1, Samples.kt1, Samples.kd2] ∧
      (UseKanban.moveTask Samples.kBoard Samples.kt1 .todo .done (-1)).get .done ≠
        (Samples.kBoard.get .done).take 0 ++
          Samples.kt1 :: (Samples.kBoard.get .done).drop 0 := by
  decide

/-- C5 (code bug): the claim — a `moveTask` whose task id is absent from the
source column is a no-op — matches the spec and the guard in the drag handler
of `part_006`, but `moveTask` of `useKanban.js` omits the check:
`findIndex` yields `-1`, `splice(-1, 1)` removes the last task of the source
column, and the dragged task is inserted into the destination anyway.  On a
board with todo = [t1], moving a task with unknown id zz from todo to done
deletes t1 and materializes the ghost task, while the `part_006` handler
correctly does nothing for an unknown id. -/
theorem C5_absent_id_move_mutates_board :
    (UseKanban.moveTask Samples.kBoard Samples.kGhost .todo .done 0).get .todo
        = [] ∧
      (UseKanban.moveTask Samples.kBoard Samples.kGhost .todo .done 0).get .done
        = [Samples.kGhost, Samples.kd1, Samples.kd2] ∧
      UseKanban.moveTask Samples.kBoard Samples.kGhost .todo .done 0 ≠
        Samples.kBoard ∧
      Part006.handleDragEnd Samples.session (str "zz") (some (str "todo"))
        (.ok ()) = (Samples.session, []) := by
  decide

/-- C6 (corrected): a move whose source column equals its destination is a
pure local reorder in the `useKanban` and `App.js` variants — the column is
permuted, every other column and every status is unchanged, and no backend
call is issued — but in the `part_004` variant a same-column drop at a
different index does issue one PUT; that PUT carries the unchanged status, and
the task list is unchanged, so no status value changes in any variant. -/
theorem C6_same_column_move_amended
    (s : AppJs.AState) (aid overId : Str) (t : Task) (res : PutResult)
    (hfA : s.tasks.find? (fun task => task.id == aid) = some t)
    (htA : AppJs.targetColumn s overId = some t.status)
    (tasks4 : List Part004.PTask) (r4 : Part004.DragResult) (res4 : PutResult)
    (d : Str × Int) (task4 : Part004.PTask)
    (hd : r4.destination = some d) (hcol : d.1 = r4.source.1)
    (hidx : d.2 ≠ r4.source.2)
    (hf4 : tasks4.find? (fun t => t.id == r4.draggableId) = some task4)
    (hst4 : task4.status = d.1)
    (huniq : ∀ x ∈ tasks4, x.id = task4.id → x = task4)
    (b : UseKanban.Board) (dragged : UseKanban.KTask) (c : UseKanban.ColId)
    (i : Int) (k : Nat)
    (hfind : (b.get c).findIdx? (fun x => x.id == dragged.id) = some k)
    (hget : (b.get c)[k]? = some dragged) :
    AppJs.handleDragEnd s aid (some overId) res = (s, []) ∧
    ((Part004.handleDragEnd tasks4 r4 res4).1 = tasks4 ∧
      callsOf (Part004.handleDragEnd tasks4 r4 res4).2 =
        [.putStatus r4.draggableId task4.status]) ∧
    (List.Perm ((UseKanban.moveTask b dragged c c i).get c) (b.get c) ∧
      ∀ c', c' ≠ c → (UseKanban.moveTask b dragged c c i).get c' = b.get c') := by
  refine ⟨?_, ?_, UseKanban.moveTask_same_col_perm b dragged c i k hfind hget⟩
  · unfold AppJs.handleDragEnd
    simp [hfA, htA]
  · have hp4 := List.find?_some hf4
    have hid : task4.id = r4.draggableId := beq_iff_eq.mp hp4
    have hfalse : (d.1 == r4.source.1 && d.2 == r4.source.2) = false := by
      simp [beq_eq_false_iff_ne.mpr hidx]
    unfold Part004.handleDragEnd
    rw [hd]
    simp only [hfalse, Bool.false_eq_true, if_false, hf4]
    cases res4 with
    | ok u =>
      constructor
      · show tasks4.map _ = tasks4
        have hmap : ∀ x ∈ tasks4,
            (if x.id == r4.draggableId then { task4 with status := d.1 } else x)
              = x := by
          intro x hx
          cases hxid : (x.id == r4.draggableId) with
          | false => simp [hxid]
          | true =>
            have hxt : x = task4 := huniq x hx (by rw [beq_iff_eq.mp hxid, hid])
            have heq : ({ task4 with status := d.1 } : Part004.PTask) = task4 := by
              rw [← hst4]
            simp [hxid, heq, hxt]
        calc tasks4.map _ = tasks4.map id := List.map_congr_left hmap
          _ = tasks4 := List.map_id tasks4
      · simp [callsOf, hst4]
    | err e =>
      exact ⟨rfl, by simp [callsOf, hst4]⟩

/-- C6 witness: a concrete same-column drop in each variant. -/
theorem C6_witness :
    AppJs.handleDragEnd Samples.appState (str "b") (some (str "inprogress"))
        (.ok ()) = (Samples.appState, []) ∧
      (Part004.handleDragEnd [Samples.pTask] Samples.dragSameCol (.ok ())).1 =
        [Samples.pTask] ∧
      List.Perm ((UseKanban.moveTask Samples.kBoard Samples.kd1 .done .done 5).get
        .done) (Samples.kBoard.get .done) := by
  have h := C6_same_column_move_amended Samples.appState (str "b")
    (str "inprogress") Samples.taskB (.ok ()) (by decide) (by decide)
    [Samples.pTask] Samples.dragSameCol (.ok ()) (str "todo", 1) Samples.pTask
    (by decide) (by decide) (by decide) (by decide) (by decide) (by decide)
    Samples.kBoard Samples.kd1 .done 5 0 (by decide) (by decide)
  exact ⟨h.1, h.2.1.1, h.2.2.1⟩

/-- C6 counterexample: in `part_004`, a drop in the same column at a different
index issues a backend PUT (carrying the unchanged status), refuting the claim
that a same-column move issues no persistence call. -/
theorem C6_counterexample :
    (Part004.handleDragEnd [Samples.pTask] Samples.dragSameCol (.ok ())).2 ≠ [] ∧
      callsOf (Part004.handleDragEnd [Samples.pTask] Samples.dragSameCol
          (.ok ())).2 = [.putStatus (str "p1") (str "todo")] ∧
      (Part004.handleDragEnd [Samples.pTask] Samples.dragSameCol (.ok ())).1 =
        [Samples.pTask] := by
  decide

/-- C7 (corrected): edits never change column membership when no status field
is passed: `editTask` of `useKanban.js` preserves the id sequence of every
column (its tasks have no status field at all), `handleSaveTask` of `part_006`
preserves every status of every task whenever the patch carries no status key, and
the edit modal of `part_006` never puts a status key into its patch — so edits
initiated through the UI leave status and column membership unchanged.
However, a status field passed programmatically through `handleSaveTask` is
applied silently, neither ignored nor rejected with an error — see the
counterexample. -/
theorem C7_edit_preserves_status_amended
    (b : UseKanban.Board) (cid : UseKanban.ColId) (tid content : Str)
    (col : UseKanban.ColId)
    (s6 : Part006.SessionState) (taskId : Str) (p : TaskPatch) (res : PutResult)
    (hp : p.status = none) (f : Part006.EditForm) :
    (((UseKanban.editTask b cid tid content).get col).map UseKanban.KTask.id =
      (b.get col).map UseKanban.KTask.id) ∧
    (((Part006.handleSaveTask s6 taskId p res).1.tasks).map Task.status =
      s6.tasks.map Task.status) ∧
    (Part006.editModalPatch f).status = none := by
  refine ⟨?_, ?_, rfl⟩
  · by_cases hc : col = cid
    · subst hc
      unfold UseKanban.editTask
      rw [UseKanban.Board.get_set_self, List.map_map]
      refine List.map_congr_left ?_
      intro task _
      simp only [Function.comp]
      split <;> rfl
    · unfold UseKanban.editTask
      rw [UseKanban.Board.get_set_ne _ _ _ _ hc]
  · cases res with
    | err e => rfl
    | ok u =>
      show (s6.tasks.map _).map _ = _
      rw [List.map_map]
      refine List.map_congr_left ?_
      intro task _
      simp only [Function.comp]
      split
      · show (applyPatch task p).status = task.status
        simp [applyPatch, hp]
      · rfl

/-- C7 witness: a concrete status-free edit in each variant. -/
theorem C7_witness :
    (((UseKanban.editTask Samples.kBoard .todo (str "t1") (str "new")).get
        .todo).map UseKanban.KTask.id = (Samples.kBoard.get .todo).map
        UseKanban.KTask.id) ∧
      ((Part006.handleSaveTask Samples.session (str "a") {} (.ok ())).1.tasks).map
        Task.status = Samples.session.tasks.map Task.status ∧
      (Part006.editModalPatch Samples.editForm).status = none := by
  have h := C7_edit_preserves_status_amended Samples.kBoard .todo (str "t1")
    (str "new") .todo Samples.session (str "a") {} (.ok ()) (by decide)
    Samples.editForm
  exact ⟨h.1, h.2.1, h.2.2⟩

/-- C7 counterexample: a patch carrying a status field, passed through the
edit path `handleSaveTask` of `part_006`, silently changes the status of the
task (moving it between derived columns) and reports no error, so such a patch
is neither ignored nor rejected. -/
theorem C7_counterexample :
    ((Part006.handleSaveTask Samples.session (str "a") Samples.statusPatch
        (.ok ())).1.tasks).map Task.status = [.completed, .inprogress] ∧
      Samples.session.tasks.map Task.status = [.todo, .inprogress] ∧
      errorsOf (Part006.handleSaveTask Samples.session (str "a")
        Samples.statusPatch (.ok ())).2 = 0 := by
  decide

/-- C8 (confirmed): the filtered view of `part_006` is a pure projection: with
empty search term and both filters at all it returns the full task list; a
search term matched by no task yields empty columns for every status; every
task of the view comes unchanged from the stored list, and a filter differing
from all is an exact match on the wire representation of priority and status;
the search matcher is exactly case-insensitive substring matching over title,
description and tags. -/
theorem C8_filterView_pure_projection (ts : List Task) (term pf sf : Str) :
    Part006.filteredTasks (str "") (str "all") (str "all") ts = ts ∧
    ((∀ x ∈ ts, Part006.matchesSearch x term = false) →
      ∀ st, Part006.columnTasks st term pf sf ts = []) ∧
    (∀ t ∈ Part006.filteredTasks term pf sf ts,
      t ∈ ts ∧ (pf ≠ str "all" → t.priority.toStr = pf) ∧
        (sf ≠ str "all" → t.status.toStr = sf)) ∧
    (∀ t : Task,
      Part006.matchesSearch t term = true ↔ Part006.specSearchMatches t term) := by
  refine ⟨?_, ?_, ?_, ?_⟩
  · apply List.filter_eq_self.mpr
    intro task _
    have he : jsToLower (str "") = ([] : Str) := rfl
    have h1 : Part006.matchesSearch task (str "") = true := by
      simp [Part006.matchesSearch, he, strContains_nil]
    simp [h1]
  · intro hnone st
    unfold Part006.columnTasks
    have hempty : Part006.filteredTasks term pf sf ts = [] := by
      apply List.filter_eq_nil_iff.mpr
      intro x hx
      simp [Part006.filteredTasks, hnone x hx]
    rw [hempty]
    rfl
  · intro t htmem
    have hmf := List.mem_filter.mp htmem
    refine ⟨hmf.1, ?_, ?_⟩
    · intro hne
      have hp := hmf.2
      simp only [Bool.and_eq_true, Bool.or_eq_true] at hp
      rcases hp.1.2 with h | h
      · exact absurd (beq_iff_eq.mp h) hne
      · exact beq_iff_eq.mp h
    · intro hne
      have hp := hmf.2
      simp only [Bool.and_eq_true, Bool.or_eq_true] at hp
      rcases hp.2 with h | h
      · exact absurd (beq_iff_eq.mp h) hne
      · exact beq_iff_eq.mp h
  · intro t
    cases hd : t.description with
    | none =>
      simp [Part006.matchesSearch, Part006.specSearchMatches,
        Part006.specIsSubstring, hd, strContains_iff, List.any_eq_true]
    | some d =>
      simp only [Part006.matchesSearch, Part006.specSearchMatches,
        Part006.specIsSubstring, hd, strContains_iff, List.any_eq_true,
        Bool.or_eq_true, Option.some.injEq, exists_eq_left']
      exact or_assoc

/-- C8 witness: the concrete one-task board with an empty and a non-matching
search term. -/
theorem C8_witness :
    Part006.filteredTasks (str "") (str "all") (str "all") [Samples.taskA] =
        [Samples.taskA] ∧
      Part006.columnTasks .todo (str "xyz") (str "P1") (str "all")
        [Samples.taskA] = [] ∧
      (Part006.matchesSearch Samples.taskA (str "xyz") = true ↔
        Part006.specSearchMatches Samples.taskA (str "xyz")) := by
  have h := C8_filterView_pure_projection [Samples.taskA] (str "xyz") (str "P1")
    (str "all")
  exact ⟨h.1, h.2.1 (by decide) .todo, h.2.2.2 Samples.taskA⟩

/-- C9 (corrected): a 401-class response triggers session teardown — the
stored credential is cleared and the session state including the task list is
reset — with no retry, for the task-fetch call of both REST variants and for
the project-fetch, move (`updateTaskStatus`) and create (`handleCreateTask`)
calls of `part_006`; but not for every persistence call: the drag and create
handlers of `App.js` and the edit and delete handlers of `part_006` ignore the
response status on a 401 failure, logging one error and leaving the session —
including the stored credential — intact.  Every one of these call sites
issues at most one remote call, so none retries. -/
theorem C9_401_teardown_amended (s : AppJs.AState) (aid : Str) (ov : Option Str)
    (taskData : TaskPatch) (s6 : Part006.SessionState) (tid : Str) (st : Status)
    (taskId : Str) (patch : TaskPatch) (delId : Str) (payload : TaskPatch) :
    (AppJs.fetchTasks s (.err (some 401)) =
      (AppJs.handleLogout s, [.api .getTasks, .logError, .localUpdate]) ∧
      (AppJs.handleLogout s).token = none ∧ (AppJs.handleLogout s).tasks = [] ∧
      callsOf (AppJs.fetchTasks s (.err (some 401))).2 = [.getTasks]) ∧
    (Part006.fetchTasks s6 (.err (some 401)) =
      (Part006.handleLogout s6, [.api .getTasks, .logError, .localUpdate]) ∧
      (Part006.handleLogout s6).token = none ∧
      (Part006.handleLogout s6).tasks = [] ∧
      callsOf (Part006.fetchTasks s6 (.err (some 401))).2 = [.getTasks]) ∧
    (Part006.fetchProjects s6 (.err (some 401)) =
      (Part006.handleLogout s6, [.api .getProjects, .logError, .localUpdate]) ∧
      callsOf (Part006.fetchProjects s6 (.err (some 401))).2 = [.getProjects]) ∧
    (Part006.updateTaskStatus s6 tid st (.err (some 401)) =
      (Part006.handleLogout s6,
        [.api (.putStatus tid st.toStr), .logError, .localUpdate]) ∧
      callsOf (Part006.updateTaskStatus s6 tid st (.err (some 401))).2 =
        [.putStatus tid st.toStr]) ∧
    (Part006.handleCreateTask s6 payload (.err (some 401)) =
      (Part006.handleLogout s6,
        [.api (.postTask payload), .logError, .localUpdate]) ∧
      callsOf (Part006.handleCreateTask s6 payload (.err (some 401))).2 =
        [.postTask payload]) ∧
    ((AppJs.handleDragEnd s aid ov (.err (some 401))).1 = s ∧
      (callsOf (AppJs.handleDragEnd s aid ov (.err (some 401))).2).length ≤ 1) ∧
    (AppJs.handleAddTask s taskData (.err (some 401)) =
      (s, [.api (.postTask taskData), .logError])) ∧
    (Part006.handleSaveTask s6 taskId patch (.err (some 401)) =
      (s6, [.api (.putPatch taskId patch), .logError])) ∧
    (Part006.handleDeleteTask s6 delId (.err (some 401)) =
      (s6, [.api (.deleteTask delId), .logError])) := by
  refine ⟨⟨rfl, rfl, rfl, rfl⟩, ⟨rfl, rfl, rfl, rfl⟩, ⟨rfl, rfl⟩, ⟨rfl, rfl⟩,
    ⟨rfl, rfl⟩, ?_, rfl, rfl, rfl⟩
  rcases appjs_dragEnd_err_shape s aid ov (some 401) with h | ⟨c, h⟩
  · rw [h]
    exact ⟨rfl, by simp [callsOf]⟩
  · rw [h]
    exact ⟨rfl, by simp [callsOf]⟩

/-- C9 counterexample: a 401 failure of the status PUT in the drag handler of
`App.js` leaves the whole session state — including the stored credential —
untouched, so not every persistence call triggers a session teardown on a
401-class response. -/
theorem C9_counterexample :
    (AppJs.handleDragEnd Samples.appState (str "a") (some (str "completed"))
        (.err (some 401))).1 = Samples.appState ∧
      Samples.appState.token = some (str "tok") := by
  decide

/-- C10 (confirmed): in the `useKanban` variant, `deleteTask(columnId, taskId)`
is idempotent — applying it twice equals applying it once — and when no task
of the column has the given id, the whole board is left unchanged. -/
theorem C10_deleteTask_idempotent (b : UseKanban.Board) (cid : UseKanban.ColId)
    (tid : Str) :
    UseKanban.deleteTask (UseKanban.deleteTask b cid tid) cid tid =
      UseKanban.deleteTask b cid tid ∧
    ((∀ t ∈ b.get cid, (t.id == tid) = false) →
      UseKanban.deleteTask b cid tid = b) := by
  constructor
  · unfold UseKanban.deleteTask
    rw [UseKanban.Board.get_set_self, UseKanban.Board.set_set]
    congr 1
    exact List.filter_eq_self.mpr fun a ha => (List.mem_filter.mp ha).2
  · intro h
    unfold UseKanban.deleteTask
    rw [List.filter_eq_self.mpr, UseKanban.Board.set_get_self]
    intro t ht
    simp [bne, h t ht]

/-- C10 witness: deleting an id that is absent from the todo column. -/
theorem C10_witness :
    UseKanban.deleteTask (UseKanban.deleteTask Samples.kBoard .todo (str "zz"))
        .todo (str "zz") =
        UseKanban.deleteTask Samples.kBoard .todo (str "zz") ∧
      UseKanban.deleteTask Samples.kBoard .todo (str "zz") = Samples.kBoard :=
  ⟨(C10_deleteTask_idempotent Samples.kBoard .todo (str "zz")).1,
   (C10_deleteTask_idempotent Samples.kBoard .todo (str "zz")).2 (by decide)⟩
